import Mathlib

/-!
# KMS key sweeper (`internal/service/kms/sweep.go`)

A shallow embedding of `sweepKeys`.  The function is effectful: it obtains a
regional client, pages through `ListKeys`, describes every listed key, builds a
sweepable for each survivor and hands the collection to the sweep orchestrator.
The embedding passes the function's local variables explicitly and records the
calls it makes to its collaborators in a trace, so that statements such as
"the orchestrator is not invoked" can be expressed.

The collaborators that are not part of `sweep.go` (the client cache, the
`ListKeys` paginator, `FindKeyByID`, the error predicates and the orchestrator)
are the fields of `Env`.
-/

namespace KMSSweep

/-! ## Go values -/

/-- A non-nil Go `error` value.  `apiError code message` is a service error
as returned by an SDK v2 client (a `smithy.APIError`); `awserr code message`
is a service error of the SDK v1 (an `awserr.Error`); `external` is any other
error produced by a collaborator; `errorf format args cause` is the value of
`fmt.Errorf(format, args..., cause)` for a format whose last verb is `%w`. -/
inductive GoError where
  | external (msg : String)
  | apiError (code : String) (message : String)
  | awserr (code : String) (message : String)
  | errorf (format : String) (args : List String) (cause : GoError)
deriving DecidableEq, Repr

/-- The `error` returned by `sweepKeys` when it is not nil: either a single
error value, or a `*multierror.Error` holding a non-empty list of errors. -/
inductive SweepError where
  | plain (e : GoError)
  | multi (errs : List GoError)
deriving DecidableEq, Repr

/-- The handle `*conns.AWSClient` returned by the regional client cache. -/
structure AWSClient where
  Region : String
deriving DecidableEq, Repr

/-- The `*kms.Client` obtained from an `AWSClient`. -/
structure KMSConn where
  owner : AWSClient
deriving DecidableEq, Repr

/-- Method `client.KMSClient(ctx)`. -/
def AWSClient.KMSClient (client : AWSClient) : KMSConn := ⟨client⟩

/-- Value of `awstypes.KeyManagerType`. -/
inductive KeyManagerType where
  | Aws
  | Customer
deriving DecidableEq, Repr

/-- Value of `awstypes.KeyState`. -/
inductive KeyState where
  | Creating
  | Enabled
  | Disabled
  | PendingDeletion
  | PendingImport
  | PendingReplicaDeletion
  | Unavailable
  | Updating
deriving DecidableEq, Repr

/-- The fields of `awstypes.KeyMetadata` that `sweepKeys` reads, plus one it
does not read. -/
structure KeyMetadata where
  KeyManager : KeyManagerType
  KeyState : KeyState
  Description : String
deriving DecidableEq, Repr

/-- Element of `ListKeysOutput.Keys`; `KeyId` is a `*string`. -/
structure KeyListEntry where
  KeyId : Option String
deriving DecidableEq, Repr

/-- One page of `ListKeys`. -/
structure ListKeysOutput where
  Keys : List KeyListEntry
deriving DecidableEq, Repr

/-- The request `kms.ListKeysInput`. -/
structure ListKeysInput where
  Limit : Option Int
deriving DecidableEq, Repr

/-- Function `aws.ToString`: a nil pointer reads as the empty string. -/
def ToString (p : Option String) : String :=
  match p with
  | some s => s
  | none => ""

/-- Function `aws.Int32`. -/
def Int32 (n : Int) : Option Int := some n

/-! ## Resource data and sweepables -/

/-- A value stored in a `schema.ResourceData` field. -/
inductive Value where
  | str (s : String)
  | int (n : Int)
deriving DecidableEq, Repr

/-- The `*schema.Resource` of a resource type. -/
inductive Resource where
  | KmsKey
deriving DecidableEq, Repr

/-- Function `ResourceKey()`. -/
def ResourceKey : Resource := Resource.KmsKey

/-- State held by a `*schema.ResourceData`: the resource id and the fields
that were set. -/
structure ResourceData where
  Id : String
  fields : List (String × Value)
deriving DecidableEq, Repr

/-- Method `r.Data(nil)`: an empty resource data. -/
def Resource.Data (_r : Resource) : ResourceData := ⟨"", []⟩

/-- Method `d.SetId`. -/
def ResourceData.SetId (d : ResourceData) (id : String) : ResourceData :=
  { d with Id := id }

/-- Method `d.Set`: the field takes the new value, replacing an earlier one. -/
def ResourceData.Set (d : ResourceData) (key : String) (value : Value) : ResourceData :=
  { d with fields := (d.fields.filter (fun kv => kv.1 != key)) ++ [(key, value)] }

/-- Method `d.Get`, as a lookup. -/
def ResourceData.Get (d : ResourceData) (key : String) : Option Value :=
  (d.fields.find? (fun kv => kv.1 == key)).map (fun kv => kv.2)

/-- The value of `sdk.NewSweepResource(r, d, client)`. -/
structure SweepResource where
  resource : Resource
  d : ResourceData
  client : AWSClient
deriving DecidableEq, Repr

/-- Function `sdk.NewSweepResource`. -/
def NewSweepResource (r : Resource) (d : ResourceData) (client : AWSClient) : SweepResource :=
  ⟨r, d, client⟩

/-! ## Collaborators and trace -/

/-- An argument of a `log.Printf` call. -/
inductive LogArg where
  | str (s : String)
  | err (e : Option GoError)
deriving DecidableEq, Repr

/-- A call made by `sweepKeys` to one of its collaborators. -/
inductive Event where
  | SharedRegionalSweepClient (region : String)
  | NextPage (conn : KMSConn) (input : ListKeysInput)
  | FindKeyByID (conn : KMSConn) (keyID : String)
  | Printf (format : String) (args : List LogArg)
  | SweepOrchestrator (sweepResources : List SweepResource)
deriving DecidableEq, Repr

/-- The collaborators of `sweepKeys`; none of them is defined in `sweep.go`.

* `SharedRegionalSweepClient` is `sweep.SharedRegionalSweepClient`.
* `ListKeysPages conn input` is the script of the paginator built by
  `kms.NewListKeysPaginator(conn, input)`: the results of its successive
  `NextPage` calls; `HasMorePages` holds while the script is not exhausted.
* `FindKeyByID` is the describe call.
* `NotFound` is `tfresource.NotFound`, `ErrMessageContains` is
  `tfawserr.ErrMessageContains` of the package `awsv1shim/v2/tfawserr`
  imported on line 13, `SkipSweepError` is `awsv1.SkipSweepError`; their
  argument is a Go `error`, `none` being nil.
* `SweepOrchestrator` is `sweep.SweepOrchestrator`. -/
structure Env where
  SharedRegionalSweepClient : String → Except GoError AWSClient
  ListKeysPages : KMSConn → ListKeysInput → List (Except GoError ListKeysOutput)
  FindKeyByID : KMSConn → String → Except GoError KeyMetadata
  NotFound : Option GoError → Bool
  ErrMessageContains : Option GoError → String → String → Bool
  SkipSweepError : Option GoError → Bool
  SweepOrchestrator : List SweepResource → Option GoError

/-- The Go `error` of a call that returns `(value, error)`. -/
def errOf {α : Type} (r : Except GoError α) : Option GoError :=
  match r with
  | .ok _ => none
  | .error e => some e

/-! ## `sweepKeys` -/

/-- The local variables of `sweepKeys` that live across the pagination loop,
with the trace of calls made so far.  `err` is the function-level variable
declared on line 31. -/
structure Locals where
  err : Option GoError
  sweeperErrs : List GoError
  sweepResources : List SweepResource
  trace : List Event
deriving DecidableEq, Repr

/-- Function `multierror.Append(errs, e)` for a single, non-multi `e`; the nil
`*multierror.Error` is the empty list. -/
def Append (errs : List GoError) (e : GoError) : List GoError := errs ++ [e]

/-- Method `ErrorOrNil`: nil when no error was collected. -/
def ErrorOrNil (errs : List GoError) : Option SweepError :=
  if errs.isEmpty then none else some (SweepError.multi errs)

/-- Record a call in the trace. -/
def Locals.emit (s : Locals) (e : Event) : Locals :=
  { s with trace := s.trace ++ [e] }

/-- Lines 75-81: the sweepable built for a key id. -/
def newKeySweepResource (client : AWSClient) (keyID : String) : SweepResource :=
  let r := ResourceKey
  let d := r.Data
  let d := d.SetId keyID
  let d := d.Set "key_id" (Value.str keyID)
  let d := d.Set "deletion_window_in_days" (Value.int 7)
  NewSweepResource r d client

/-- Lines 49-82, one iteration of the inner loop `for _, v := range page.Keys`.
The `err` bound by `key, err := FindKeyByID(...)` shadows the function-level
one, which is left untouched. -/
def keyStep (env : Env) (client : AWSClient) (conn : KMSConn) (s : Locals)
    (v : KeyListEntry) : Locals :=
  let keyID := ToString v.KeyId
  let s := s.emit (Event.FindKeyByID conn keyID)
  let found := env.FindKeyByID conn keyID
  let err := errOf found
  if env.NotFound err then
    s
  else
    match found with
    | .error e =>
      if env.ErrMessageContains err "AccessDeniedException" "is not authorized to perform" then
        s.emit (Event.Printf "[DEBUG] Skipping KMS Key (%s): %s" [LogArg.str keyID, LogArg.err err])
      else
        { s with sweeperErrs :=
            Append s.sweeperErrs (GoError.errorf "reading KMS Key (%s): %w" [keyID] e) }
    | .ok key =>
      if key.KeyManager = KeyManagerType.Aws then
        s.emit (Event.Printf "[DEBUG] Skipping KMS Key (%s): managed by AWS" [LogArg.str keyID])
      else if key.KeyState = KeyState.PendingDeletion then
        s.emit (Event.Printf "[DEBUG] Skipping KMS Key (%s): pending deletion" [LogArg.str keyID])
      else
        { s with sweepResources := s.sweepResources ++ [newKeySweepResource client keyID] }

/-- Lines 43-83, the loop `for pages.HasMorePages()` over the paginator's
remaining script.  The second component is the error of the early
`return err` on line 46, if that return was taken. -/
def pagesLoop (env : Env) (client : AWSClient) (conn : KMSConn) (input : ListKeysInput) :
    List (Except GoError ListKeysOutput) → Locals → Locals × Option GoError
  | [], s => (s, none)
  | next :: rest, s =>
    let s := s.emit (Event.NextPage conn input)
    match next with
    | .error err => (s, some err)
    | .ok page => pagesLoop env client conn input rest (page.Keys.foldl (keyStep env client conn) s)

/-- What a call of `sweepKeys` does: the `error` it returns (`none` is nil)
and the calls it made, in order. -/
structure Run where
  result : Option SweepError
  trace : List Event
deriving DecidableEq, Repr

/-- Lines 85-100, the code after the pagination loop. -/
def afterLoop (env : Env) (region : String) (s : Locals) : Run :=
  if env.SkipSweepError s.err then
    let s := s.emit (Event.Printf "[WARN] Skipping KMS Key sweep for %s: %s"
      [LogArg.str region, LogArg.err s.err])
    ⟨ErrorOrNil s.sweeperErrs, s.trace⟩
  else
    let s :=
      match s.err with
      | some err =>
        { s with sweeperErrs :=
            Append s.sweeperErrs (GoError.errorf "error listing KMS Keys (%s): %w" [region] err) }
      | none => s
    let s := s.emit (Event.SweepOrchestrator s.sweepResources)
    let s := { s with err := env.SweepOrchestrator s.sweepResources }
    let s :=
      match s.err with
      | some err =>
        { s with sweeperErrs :=
            Append s.sweeperErrs (GoError.errorf "error sweeping KMS Keys (%s): %w" [region] err) }
      | none => s
    ⟨ErrorOrNil s.sweeperErrs, s.trace⟩

/-- Function `sweepKeys(region string) error`. -/
def sweepKeys (env : Env) (region : String) : Run :=
  let trace := [Event.SharedRegionalSweepClient region]
  match env.SharedRegionalSweepClient region with
  | .error err => ⟨some (SweepError.plain (GoError.errorf "error getting client: %w" [] err)), trace⟩
  | .ok client =>
    let input : ListKeysInput := { Limit := Int32 1000 }
    let conn := client.KMSClient
    let s : Locals := { err := none, sweeperErrs := [], sweepResources := [], trace := trace }
    match pagesLoop env client conn input (env.ListKeysPages conn input) s with
    | (s, some err) => ⟨some (SweepError.plain err), s.trace⟩
    | (s, none) => afterLoop env region s

/-! ## Vocabulary of the statements -/

/-- The pages of a paginator script that are fetched before its first error. -/
def fetched : List (Except GoError ListKeysOutput) → List ListKeysOutput
  | [] => []
  | .error _ :: _ => []
  | .ok page :: rest => page :: fetched rest

/-- The first page-fetch error of a paginator script, if it has one. -/
def pageError : List (Except GoError ListKeysOutput) → Option GoError
  | [] => none
  | .error e :: _ => some e
  | .ok _ :: rest => pageError rest

/-- The key ids of a page, in listing order. -/
def pageKeyIDs (page : ListKeysOutput) : List String :=
  page.Keys.map (fun v => ToString v.KeyId)

/-- The key ids of a list of pages, in listing order, with multiplicity. -/
def listedKeyIDs (pages : List ListKeysOutput) : List String :=
  pages.flatMap pageKeyIDs

/-- The paginator script that `sweepKeys` runs through for a client. -/
def Env.script (env : Env) (client : AWSClient) : List (Except GoError ListKeysOutput) :=
  env.ListKeysPages client.KMSClient { Limit := some 1000 }

/-- The describe call for the key succeeded, the key is not managed by AWS and
it is not pending deletion. -/
def proceeds (env : Env) (conn : KMSConn) (keyID : String) : Bool :=
  match env.FindKeyByID conn keyID with
  | .ok key => key.KeyManager != KeyManagerType.Aws && key.KeyState != KeyState.PendingDeletion
  | .error _ => false

/-- The cause of a describe failure that is neither not-found nor
authorization-denied, if the describe call for the key fails that way. -/
def describeFailure (env : Env) (conn : KMSConn) (keyID : String) : Option GoError :=
  match env.FindKeyByID conn keyID with
  | .ok _ => none
  | .error e =>
    if env.NotFound (some e) then none
    else if env.ErrMessageContains (some e) "AccessDeniedException" "is not authorized to perform"
    then none
    else some e

/-- The entry recorded in the aggregate error for a describe failure. -/
def readingError (keyID : String) (cause : GoError) : GoError :=
  GoError.errorf "reading KMS Key (%s): %w" [keyID] cause

/-- The entries recorded for the describe failures of a list of key ids, in
listing order. -/
def readingErrors (env : Env) (conn : KMSConn) (keyIDs : List String) : List GoError :=
  keyIDs.filterMap (fun k => (describeFailure env conn k).map (readingError k))

/-- The sweepable appended by one iteration of the inner loop, if any. -/
def kept (env : Env) (client : AWSClient) (conn : KMSConn) (keyID : String) :
    Option SweepResource :=
  match env.FindKeyByID conn keyID with
  | .ok key =>
    if env.NotFound none then none
    else if key.KeyManager = KeyManagerType.Aws then none
    else if key.KeyState = KeyState.PendingDeletion then none
    else some (newKeySweepResource client keyID)
  | .error _ => none

/-- The arguments of the `SweepOrchestrator` calls of a trace, in order. -/
def orchestratorCalls (trace : List Event) : List (List SweepResource) :=
  trace.filterMap (fun e => match e with
    | Event.SweepOrchestrator rs => some rs
    | _ => none)

/-- The key ids of the `FindKeyByID` calls of a trace, in order. -/
def describeCalls (trace : List Event) : List String :=
  trace.filterMap (fun e => match e with
    | Event.FindKeyByID _ keyID => some keyID
    | _ => none)

/-- The connections of the `NextPage` calls of a trace, in order. -/
def pageCalls (trace : List Event) : List KMSConn :=
  trace.filterMap (fun e => match e with
    | Event.NextPage conn _ => some conn
    | _ => none)

/-- The formats of the `log.Printf` calls of a trace, in order. -/
def logFormats (trace : List Event) : List String :=
  trace.filterMap (fun e => match e with
    | Event.Printf format _ => some format
    | _ => none)

/-- The error is a `fmt.Errorf` value built with the given format. -/
def hasFormat (format : String) (e : GoError) : Bool :=
  match e with
  | GoError.errorf f _ _ => f == format
  | _ => false

/-- The formats of the log lines written inside the pagination loop. -/
def loopLogFormats : List String :=
  ["[DEBUG] Skipping KMS Key (%s): %s",
   "[DEBUG] Skipping KMS Key (%s): managed by AWS",
   "[DEBUG] Skipping KMS Key (%s): pending deletion"]

/-- The number of `NextPage` calls a paginator script receives: one for each
fetched page and one for the failing fetch, if any. -/
def fetchCount (script : List (Except GoError ListKeysOutput)) : Nat :=
  (fetched script).length + (if (pageError script).isSome then 1 else 0)

/-- The local variables when the pagination loop is entered. -/
def loopEntry (region : String) : Locals :=
  { err := none, sweeperErrs := [], sweepResources := [],
    trace := [Event.SharedRegionalSweepClient region] }

/-- The local variables when the pagination loop is left, for a run that
obtained `client`. -/
def loopExit (env : Env) (region : String) (client : AWSClient) : Locals :=
  (pagesLoop env client client.KMSClient { Limit := some 1000 } (env.script client)
    (loopEntry region)).1

/-- The entry appended for the error returned by `SweepOrchestrator`. -/
def sweepingErrors (region : String) (r : Option GoError) : List GoError :=
  match r with
  | some e => [GoError.errorf "error sweeping KMS Keys (%s): %w" [region] e]
  | none => []

/-! ## Example environments -/

/-- The character list begins with the given one. -/
def beginsWith : List Char → List Char → Bool
  | _, [] => true
  | [], _ :: _ => false
  | c :: s, d :: t => c == d && beginsWith s t

/-- The character list has the given one as a contiguous part. -/
def containsChars : List Char → List Char → Bool
  | [], sub => beginsWith [] sub
  | c :: s, sub => beginsWith (c :: s) sub || containsChars s sub

/-- Function `strings.Contains`. -/
def Contains (s substr : String) : Bool := containsChars s.data substr.data

/-- The matcher on a non-nil error of `tfawserr.ErrMessageContains` in the
package `awsv1shim/v2/tfawserr`, which `sweep.go` imports on line 13 (the
package is not under src/).  It looks along the `%w` chain for an SDK v1
`awserr.Error` and compares that error's code and message.  A service error
returned by an SDK v2 client is not an `awserr.Error`, so it is never
matched. -/
def awsv1Matches (code message : String) : GoError → Bool
  | GoError.awserr c m => c == code && Contains m message
  | GoError.errorf _ _ cause => awsv1Matches code message cause
  | GoError.apiError _ _ => false
  | GoError.external _ => false

/-- Function `tfawserr.ErrMessageContains` of the package
`awsv1shim/v2/tfawserr`; the nil error is not matched. -/
def awsv1ErrMessageContains (err : Option GoError) (code message : String) : Bool :=
  match err with
  | none => false
  | some e => awsv1Matches code message e

/-- The error is an authorization denial of the service: along the `%w` chain
there is a service error, of either SDK, whose code is `AccessDeniedException`
and whose message contains "is not authorized to perform". -/
def isAccessDenied : GoError → Bool
  | GoError.apiError c m => c == "AccessDeniedException" && Contains m "is not authorized to perform"
  | GoError.awserr c m => c == "AccessDeniedException" && Contains m "is not authorized to perform"
  | GoError.errorf _ _ cause => isAccessDenied cause
  | GoError.external _ => false

/-- An environment given by the result of the client cache, the paginator
script, the describe results and the orchestrator.  An error counts as
not-found when it is `external "NotFound"`, the matcher of error codes is the
one `sweep.go` imports, and no error makes the sweep skippable. -/
def scripted (client : Except GoError AWSClient)
    (script : List (Except GoError ListKeysOutput))
    (describe : String → Except GoError KeyMetadata)
    (orchestrate : List SweepResource → Option GoError) : Env :=
  { SharedRegionalSweepClient := fun _ => client
    ListKeysPages := fun _ _ => script
    FindKeyByID := fun _ keyID => describe keyID
    NotFound := fun e => e == some (GoError.external "NotFound")
    ErrMessageContains := awsv1ErrMessageContains
    SkipSweepError := fun _ => false
    SweepOrchestrator := orchestrate }

/-- The client of the example runs. -/
def west : AWSClient := ⟨"us-west-2"⟩

/-- A customer key that is enabled. -/
def enabledKey : KeyMetadata := ⟨KeyManagerType.Customer, KeyState.Enabled, ""⟩

/-- A page listing the given key ids. -/
def pageOf (keyIDs : List String) : ListKeysOutput :=
  ⟨keyIDs.map (fun k => ⟨some k⟩)⟩

/-- The service error an SDK v2 KMS client returns when the caller may not
describe a key. -/
def accessDenied : GoError :=
  GoError.apiError "AccessDeniedException"
    "User: arn:aws:iam::123456789012:user/sweeper is not authorized to perform: kms:DescribeKey"

/-- Describe results of the examples, as an SDK v2 KMS client gives them: `A`
is an enabled customer key, `B` is not found, describing `C` is denied by the
service, `M` is managed by AWS, `P` is pending deletion, and any other key
fails with a throttling error. -/
def describeABC (keyID : String) : Except GoError KeyMetadata :=
  if keyID = "A" then .ok enabledKey
  else if keyID = "B" then .error (GoError.external "NotFound")
  else if keyID = "C" then .error accessDenied
  else if keyID = "M" then .ok ⟨KeyManagerType.Aws, KeyState.Enabled, "managed"⟩
  else if keyID = "P" then .ok ⟨KeyManagerType.Customer, KeyState.PendingDeletion, ""⟩
  else .error (GoError.external "ThrottlingException")

/-- One page `[A, B, C]`, every deletion succeeds. -/
def envABC : Env :=
  scripted (.ok west) [.ok (pageOf ["A", "B", "C"])] describeABC (fun _ => none)

/-- Two pages `[A]` and `[C]`, every deletion succeeds. -/
def envDenied : Env :=
  scripted (.ok west) [.ok (pageOf ["A"]), .ok (pageOf ["C"])] describeABC (fun _ => none)

/-- Two pages `[A, X]` and `[M, A]`; describing `X` fails with a throttling
error; every deletion succeeds. -/
def envThrottled : Env :=
  scripted (.ok west) [.ok (pageOf ["A", "X"]), .ok (pageOf ["M", "A"])] describeABC
    (fun _ => none)

/-- One page `[A, P]`; the orchestrator reports a deletion error. -/
def envDeleteFails : Env :=
  scripted (.ok west) [.ok (pageOf ["A", "P"])] describeABC
    (fun _ => some (GoError.external "deleting KMS Key: timeout"))

/-- The client cache fails. -/
def envNoClient : Env :=
  scripted (.error (GoError.external "no credentials")) [.ok (pageOf ["A"])] describeABC
    (fun _ => none)

/-- The page `[A]` is fetched, then the fetch of the second page fails. -/
def envPageFails : Env :=
  scripted (.ok west) [.ok (pageOf ["A"]), .error (GoError.external "ListKeys: timeout")]
    describeABC (fun _ => none)

/-- The environment in which the given key id is absent from every listed
page; everything else is unchanged. -/
def Env.without (env : Env) (keyID : String) : Env :=
  { env with
    ListKeysPages := fun conn input =>
      (env.ListKeysPages conn input).map (fun r =>
        match r with
        | .ok page => .ok ⟨page.Keys.filter (fun v => ToString v.KeyId != keyID)⟩
        | .error e => .error e) }

/-- The page without the entries of the given key id. -/
def pageWithout (keyID : String) (page : ListKeysOutput) : ListKeysOutput :=
  ⟨page.Keys.filter (fun v => ToString v.KeyId != keyID)⟩

/-- The page `[X]` is fetched, describing `X` fails with a throttling error,
then the fetch of the second page fails. -/
def envFailsTwice : Env :=
  scripted (.ok west) [.ok (pageOf ["X"]), .error (GoError.external "ListKeys: timeout")]
    describeABC (fun _ => none)

/-! ## The inner loop -/

theorem keyStep_err (env : Env) (client : AWSClient) (conn : KMSConn) (s : Locals)
    (v : KeyListEntry) : (keyStep env client conn s v).err = s.err := by
  unfold keyStep
  simp only [Locals.emit]
  split
  · rfl
  · split
    · split <;> rfl
    · split
      · rfl
      · split <;> rfl

theorem keyStep_sweeperErrs (env : Env) (client : AWSClient) (conn : KMSConn) (s : Locals)
    (v : KeyListEntry) :
    (keyStep env client conn s v).sweeperErrs
      = s.sweeperErrs ++ readingErrors env conn [ToString v.KeyId] := by
  unfold keyStep
  simp only [Locals.emit, readingErrors, describeFailure, List.filterMap_cons,
    List.filterMap_nil]
  cases h : env.FindKeyByID conn (ToString v.KeyId) with
  | ok key =>
    simp only [errOf]
    split
    · simp
    · split <;> [simp; (split <;> simp)]
  | error e =>
    simp only [errOf]
    split
    · simp
    · split
      · simp
      · simp [Append, readingError]

theorem keyStep_sweepResources (env : Env) (client : AWSClient) (conn : KMSConn) (s : Locals)
    (v : KeyListEntry) :
    (keyStep env client conn s v).sweepResources
      = s.sweepResources ++ (kept env client conn (ToString v.KeyId)).toList := by
  unfold keyStep
  simp only [Locals.emit, kept]
  cases h : env.FindKeyByID conn (ToString v.KeyId) with
  | ok key =>
    simp only [errOf]
    split
    · simp
    · split <;> [simp; (split <;> simp)]
  | error e =>
    simp only [errOf]
    split
    · simp
    · split <;> simp

theorem keyStep_describeCalls (env : Env) (client : AWSClient) (conn : KMSConn) (s : Locals)
    (v : KeyListEntry) :
    describeCalls (keyStep env client conn s v).trace
      = describeCalls s.trace ++ [ToString v.KeyId] := by
  unfold keyStep
  simp only [Locals.emit, describeCalls]
  split
  · simp
  · split
    · split <;> simp
    · split <;> [simp; (split <;> simp)]

theorem keyStep_orchestratorCalls (env : Env) (client : AWSClient) (conn : KMSConn)
    (s : Locals) (v : KeyListEntry) :
    orchestratorCalls (keyStep env client conn s v).trace = orchestratorCalls s.trace := by
  unfold keyStep
  simp only [Locals.emit, orchestratorCalls]
  split
  · simp
  · split
    · split <;> simp
    · split <;> [simp; (split <;> simp)]

theorem keyStep_pageCalls (env : Env) (client : AWSClient) (conn : KMSConn)
    (s : Locals) (v : KeyListEntry) :
    pageCalls (keyStep env client conn s v).trace = pageCalls s.trace := by
  unfold keyStep
  simp only [Locals.emit, pageCalls]
  split
  · simp
  · split
    · split <;> simp
    · split <;> [simp; (split <;> simp)]

theorem logFormats_append (a b : List Event) :
    logFormats (a ++ b) = logFormats a ++ logFormats b := by
  simp [logFormats]

theorem logFormats_printf (format : String) (args : List LogArg) :
    logFormats [Event.Printf format args] = [format] := rfl

theorem logFormats_findKeyByID (conn : KMSConn) (keyID : String) :
    logFormats [Event.FindKeyByID conn keyID] = [] := rfl

theorem keyStep_logFormats (env : Env) (client : AWSClient) (conn : KMSConn)
    (s : Locals) (v : KeyListEntry) (f : String)
    (hf : f ∈ logFormats (keyStep env client conn s v).trace) :
    f ∈ logFormats s.trace ∨ f ∈ loopLogFormats := by
  revert hf
  unfold keyStep
  simp only [Locals.emit, loopLogFormats]
  split
  · simp only [logFormats_append, logFormats_findKeyByID, List.append_nil]
    exact Or.inl
  · split
    · split <;>
        simp only [logFormats_append, logFormats_findKeyByID, logFormats_printf,
          List.append_nil, List.mem_append, List.mem_cons, List.mem_singleton] <;> tauto
    · split <;> [skip; split] <;>
        simp only [logFormats_append, logFormats_findKeyByID, logFormats_printf,
          List.append_nil, List.mem_append, List.mem_cons, List.mem_singleton] <;> tauto

/-- The state after the inner loop has run over the keys of a page. -/
theorem keysLoop_spec (env : Env) (client : AWSClient) (conn : KMSConn)
    (keys : List KeyListEntry) (s : Locals) :
    (keys.foldl (keyStep env client conn) s).err = s.err
    ∧ (keys.foldl (keyStep env client conn) s).sweeperErrs
        = s.sweeperErrs ++ readingErrors env conn (keys.map (fun v => ToString v.KeyId))
    ∧ (keys.foldl (keyStep env client conn) s).sweepResources
        = s.sweepResources
          ++ (keys.map (fun v => ToString v.KeyId)).filterMap (kept env client conn)
    ∧ describeCalls (keys.foldl (keyStep env client conn) s).trace
        = describeCalls s.trace ++ keys.map (fun v => ToString v.KeyId)
    ∧ orchestratorCalls (keys.foldl (keyStep env client conn) s).trace
        = orchestratorCalls s.trace
    ∧ pageCalls (keys.foldl (keyStep env client conn) s).trace = pageCalls s.trace
    ∧ (∀ f ∈ logFormats (keys.foldl (keyStep env client conn) s).trace,
        f ∈ logFormats s.trace ∨ f ∈ loopLogFormats) := by
  induction keys generalizing s with
  | nil =>
    simp only [List.foldl_nil, List.map_nil, readingErrors, List.filterMap_nil,
      List.append_nil, true_and]
    exact fun f hf => Or.inl hf
  | cons v keys ih =>
    obtain ⟨h1, h2, h3, h4, h5, h6, h7⟩ := ih (keyStep env client conn s v)
    simp only [List.foldl_cons, List.map_cons]
    refine ⟨?_, ?_, ?_, ?_, ?_, ?_, ?_⟩
    · rw [h1, keyStep_err]
    · rw [h2, keyStep_sweeperErrs]
      simp [readingErrors, List.filterMap_cons]
      cases describeFailure env conn (ToString v.KeyId) <;> simp
    · rw [h3, keyStep_sweepResources]
      simp [List.filterMap_cons]
      cases kept env client conn (ToString v.KeyId) <;> simp
    · rw [h4, keyStep_describeCalls]
      simp
    · rw [h5, keyStep_orchestratorCalls]
    · rw [h6, keyStep_pageCalls]
    · intro f hf
      rcases h7 f hf with h | h
      · exact keyStep_logFormats env client conn s v f h
      · exact Or.inr h

/-- The state after the pagination loop, and how the loop was left. -/
theorem pagesLoop_spec (env : Env) (client : AWSClient) (conn : KMSConn)
    (input : ListKeysInput) (script : List (Except GoError ListKeysOutput)) (s : Locals) :
    (pagesLoop env client conn input script s).2 = pageError script
    ∧ (pagesLoop env client conn input script s).1.err = s.err
    ∧ (pagesLoop env client conn input script s).1.sweeperErrs
        = s.sweeperErrs ++ readingErrors env conn (listedKeyIDs (fetched script))
    ∧ (pagesLoop env client conn input script s).1.sweepResources
        = s.sweepResources ++ (listedKeyIDs (fetched script)).filterMap (kept env client conn)
    ∧ describeCalls (pagesLoop env client conn input script s).1.trace
        = describeCalls s.trace ++ listedKeyIDs (fetched script)
    ∧ orchestratorCalls (pagesLoop env client conn input script s).1.trace
        = orchestratorCalls s.trace
    ∧ pageCalls (pagesLoop env client conn input script s).1.trace
        = pageCalls s.trace ++ List.replicate (fetchCount script) conn
    ∧ (∀ f ∈ logFormats (pagesLoop env client conn input script s).1.trace,
        f ∈ logFormats s.trace ∨ f ∈ loopLogFormats) := by
  induction script generalizing s with
  | nil =>
    simp only [pagesLoop, pageError, fetched, listedKeyIDs, readingErrors, fetchCount,
      List.flatMap_nil, List.filterMap_nil, List.append_nil, List.length_nil,
      Option.isSome_none, Bool.false_eq_true, if_false, List.replicate_zero, true_and,
      Nat.add_zero]
    exact fun f hf => Or.inl hf
  | cons next rest ih =>
    cases next with
    | error e =>
      refine ⟨rfl, rfl, ?_, ?_, ?_, ?_, ?_, ?_⟩
      · simp [pagesLoop, fetched, listedKeyIDs, readingErrors, Locals.emit]
      · simp [pagesLoop, fetched, listedKeyIDs, Locals.emit]
      · simp [pagesLoop, fetched, listedKeyIDs, Locals.emit, describeCalls]
      · simp [pagesLoop, Locals.emit, orchestratorCalls]
      · simp [pagesLoop, fetched, pageError, fetchCount, Locals.emit, pageCalls]
      · intro f hf
        left
        simpa [pagesLoop, Locals.emit, logFormats] using hf
    | ok page =>
      obtain ⟨k1, k2, k3, k4, k5, k6, k7⟩ :=
        keysLoop_spec env client conn page.Keys (s.emit (Event.NextPage conn input))
      obtain ⟨h0, h1, h2, h3, h4, h5, h6, h7⟩ :=
        ih (page.Keys.foldl (keyStep env client conn) (s.emit (Event.NextPage conn input)))
      simp only [pagesLoop, pageError, fetched]
      refine ⟨h0, ?_, ?_, ?_, ?_, ?_, ?_, ?_⟩
      · rw [h1, k1]; rfl
      · rw [h2, k2]
        simp [Locals.emit, listedKeyIDs, pageKeyIDs, readingErrors]
      · rw [h3, k3]
        simp [Locals.emit, listedKeyIDs, pageKeyIDs]
      · rw [h4, k4]
        simp [Locals.emit, listedKeyIDs, pageKeyIDs, describeCalls]
      · rw [h5, k5]
        simp [Locals.emit, orchestratorCalls]
      · rw [h6, k6]
        simp only [Locals.emit, pageCalls, fetchCount, fetched, pageError, List.length_cons,
          List.filterMap_append, List.filterMap_cons, List.filterMap_nil, List.append_assoc,
          List.singleton_append]
        rw [Nat.add_right_comm, List.replicate_succ]
      · intro f hf
        rcases h7 f hf with h | h
        · rcases k7 f h with h | h
          · left
            simpa [Locals.emit, logFormats] using h
          · exact Or.inr h
        · exact Or.inr h

/-! ## The whole function -/

theorem loopExit_spec (env : Env) (region : String) (client : AWSClient) :
    (loopExit env region client).err = none
    ∧ (loopExit env region client).sweeperErrs
        = readingErrors env client.KMSClient (listedKeyIDs (fetched (env.script client)))
    ∧ (loopExit env region client).sweepResources
        = (listedKeyIDs (fetched (env.script client))).filterMap
            (kept env client client.KMSClient)
    ∧ describeCalls (loopExit env region client).trace
        = listedKeyIDs (fetched (env.script client))
    ∧ orchestratorCalls (loopExit env region client).trace = []
    ∧ pageCalls (loopExit env region client).trace
        = List.replicate (fetchCount (env.script client)) client.KMSClient
    ∧ (∀ f ∈ logFormats (loopExit env region client).trace, f ∈ loopLogFormats) := by
  obtain ⟨_, h1, h2, h3, h4, h5, h6, h7⟩ :=
    pagesLoop_spec env client client.KMSClient { Limit := some 1000 } (env.script client)
      (loopEntry region)
  refine ⟨h1, ?_, ?_, ?_, ?_, ?_, ?_⟩
  · simpa [loopEntry] using h2
  · simpa [loopEntry] using h3
  · simpa [loopEntry, describeCalls] using h4
  · simpa [loopEntry, orchestratorCalls] using h5
  · simpa [loopEntry, pageCalls] using h6
  · intro f hf
    rcases h7 f hf with h | h
    · simp [loopEntry, logFormats] at h
    · exact h

theorem sweepKeys_client_error (env : Env) (region : String) (e : GoError)
    (hClient : env.SharedRegionalSweepClient region = .error e) :
    sweepKeys env region
      = ⟨some (SweepError.plain (GoError.errorf "error getting client: %w" [] e)),
          [Event.SharedRegionalSweepClient region]⟩ := by
  simp [sweepKeys, hClient]

theorem sweepKeys_page_error (env : Env) (region : String) (client : AWSClient) (e : GoError)
    (hClient : env.SharedRegionalSweepClient region = .ok client)
    (hPage : pageError (env.script client) = some e) :
    sweepKeys env region = ⟨some (SweepError.plain e), (loopExit env region client).trace⟩ := by
  have h0 := (pagesLoop_spec env client client.KMSClient { Limit := some 1000 }
    (env.script client) (loopEntry region)).1
  rw [hPage] at h0
  simp only [sweepKeys, hClient, Int32]
  simp only [Env.script, loopEntry] at h0
  split
  · rename_i s err hs
    rw [hs] at h0
    simp only [loopExit, Env.script, loopEntry, hs]
    simp only [Option.some.injEq] at h0
    rw [h0]
  · rename_i s hs
    rw [hs] at h0
    simp at h0

theorem sweepKeys_pages_ok (env : Env) (region : String) (client : AWSClient)
    (hClient : env.SharedRegionalSweepClient region = .ok client)
    (hPage : pageError (env.script client) = none) :
    sweepKeys env region = afterLoop env region (loopExit env region client) := by
  have h0 := (pagesLoop_spec env client client.KMSClient { Limit := some 1000 }
    (env.script client) (loopEntry region)).1
  rw [hPage] at h0
  simp only [sweepKeys, hClient, Int32]
  simp only [Env.script, loopEntry] at h0
  split
  · rename_i s err hs
    rw [hs] at h0
    simp at h0
  · rename_i s hs
    simp only [loopExit, Env.script, loopEntry, hs]

theorem afterLoop_no_skip (env : Env) (region : String) (s : Locals) (hErr : s.err = none)
    (hSkip : env.SkipSweepError none = false) :
    afterLoop env region s
      = ⟨ErrorOrNil (s.sweeperErrs
            ++ sweepingErrors region (env.SweepOrchestrator s.sweepResources)),
          s.trace ++ [Event.SweepOrchestrator s.sweepResources]⟩ := by
  simp only [afterLoop, hErr, hSkip, Locals.emit, sweepingErrors]
  cases env.SweepOrchestrator s.sweepResources <;> simp [Append]

theorem afterLoop_skip (env : Env) (region : String) (s : Locals) (hErr : s.err = none)
    (hSkip : env.SkipSweepError none = true) :
    afterLoop env region s
      = ⟨ErrorOrNil s.sweeperErrs,
          s.trace ++ [Event.Printf "[WARN] Skipping KMS Key sweep for %s: %s"
            [LogArg.str region, LogArg.err none]]⟩ := by
  simp [afterLoop, hErr, hSkip, Locals.emit]

/-! ## Auxiliary facts -/

theorem fetched_map_ok (pages : List ListKeysOutput) :
    fetched (pages.map Except.ok) = pages := by
  induction pages with
  | nil => rfl
  | cons p ps ih => simp [fetched, ih]

theorem pageError_map_ok (pages : List ListKeysOutput) :
    pageError (pages.map Except.ok) = none := by
  induction pages with
  | nil => rfl
  | cons p ps ih => simp [pageError, ih]

theorem mem_readingErrors (env : Env) (conn : KMSConn) (keyIDs : List String) (e : GoError) :
    e ∈ readingErrors env conn keyIDs
      ↔ ∃ k ∈ keyIDs, ∃ cause, describeFailure env conn k = some cause
          ∧ e = readingError k cause := by
  simp only [readingErrors, List.mem_filterMap]
  constructor
  · rintro ⟨k, hk, h⟩
    cases hd : describeFailure env conn k with
    | none => simp [hd] at h
    | some cause =>
      simp only [hd, Option.map_some', Option.some.injEq] at h
      exact ⟨k, hk, cause, hd, h.symm⟩
  · rintro ⟨k, hk, cause, hc, rfl⟩
    exact ⟨k, hk, by simp [hc]⟩

theorem readingErrors_eq_nil (env : Env) (conn : KMSConn) (keyIDs : List String) :
    readingErrors env conn keyIDs = []
      ↔ ∀ k ∈ keyIDs, describeFailure env conn k = none := by
  simp [readingErrors, List.filterMap_eq_nil_iff]

theorem kept_eq (env : Env) (client : AWSClient) (conn : KMSConn) (keyID : String)
    (hNF : env.NotFound none = false) :
    kept env client conn keyID
      = if proceeds env conn keyID then some (newKeySweepResource client keyID) else none := by
  unfold kept proceeds
  cases env.FindKeyByID conn keyID with
  | error e => simp
  | ok key =>
    simp only [hNF, Bool.false_eq_true, if_false]
    by_cases h1 : key.KeyManager = KeyManagerType.Aws
    · simp [h1]
    · by_cases h2 : key.KeyState = KeyState.PendingDeletion
      · simp [h1, h2]
      · simp [h1, h2]

theorem filterMap_kept (env : Env) (client : AWSClient) (conn : KMSConn)
    (keyIDs : List String) (hNF : env.NotFound none = false) :
    keyIDs.filterMap (kept env client conn)
      = (keyIDs.filter (proceeds env conn)).map (newKeySweepResource client) := by
  induction keyIDs with
  | nil => rfl
  | cons k ks ih =>
    rw [List.filterMap_cons, kept_eq env client conn k hNF, ih]
    cases h : proceeds env conn k <;> simp [h]

theorem kept_some (env : Env) (client : AWSClient) (conn : KMSConn) (keyID : String)
    (r : SweepResource) (h : kept env client conn keyID = some r) :
    proceeds env conn keyID = true ∧ r = newKeySweepResource client keyID := by
  unfold kept at h
  unfold proceeds
  cases hf : env.FindKeyByID conn keyID with
  | error e => simp [hf] at h
  | ok key =>
    simp only [hf] at h
    split at h
    · simp at h
    · split at h
      · simp at h
      · split at h
        · simp at h
        · rename_i h1 h2
          simp only [Option.some.injEq] at h
          simp [h1, h2, h]

theorem newKeySweepResource_fields (client : AWSClient) (keyID : String) :
    (newKeySweepResource client keyID).d.Id = keyID
    ∧ (newKeySweepResource client keyID).d.Get "key_id" = some (Value.str keyID)
    ∧ (newKeySweepResource client keyID).d.Get "deletion_window_in_days" = some (Value.int 7)
    ∧ (newKeySweepResource client keyID).client = client
    ∧ (newKeySweepResource client keyID).resource = ResourceKey := by
  refine ⟨rfl, ?_, ?_, rfl, rfl⟩
  · simp [newKeySweepResource, NewSweepResource, ResourceData.Get, ResourceData.Set,
      ResourceData.SetId, Resource.Data]
  · simp [newKeySweepResource, NewSweepResource, ResourceData.Get, ResourceData.Set,
      ResourceData.SetId, Resource.Data]

theorem newKeySweepResource_injective (client : AWSClient) :
    Function.Injective (newKeySweepResource client) := by
  intro a b h
  have ha := (newKeySweepResource_fields client a).1
  have hb := (newKeySweepResource_fields client b).1
  rw [h] at ha
  exact ha.symm.trans hb

theorem ErrorOrNil_of_ne_nil (errs : List GoError) (h : errs ≠ []) :
    ErrorOrNil errs = some (SweepError.multi errs) := by
  cases errs with
  | nil => exact absurd rfl h
  | cons e es => simp [ErrorOrNil]

/-- A run that obtained its client and fetched every page, when the nil error
does not make the sweep skippable. -/
theorem sweepKeys_normal (env : Env) (region : String) (client : AWSClient)
    (hSkip : env.SkipSweepError none = false)
    (hClient : env.SharedRegionalSweepClient region = .ok client)
    (hPage : pageError (env.script client) = none) :
    sweepKeys env region
      = ⟨ErrorOrNil (readingErrors env client.KMSClient (listedKeyIDs (fetched (env.script client)))
            ++ sweepingErrors region (env.SweepOrchestrator
                ((listedKeyIDs (fetched (env.script client))).filterMap
                  (kept env client client.KMSClient)))),
          (loopExit env region client).trace
            ++ [Event.SweepOrchestrator ((listedKeyIDs (fetched (env.script client))).filterMap
                  (kept env client client.KMSClient))]⟩ := by
  obtain ⟨h1, h2, h3, -⟩ := loopExit_spec env region client
  rw [sweepKeys_pages_ok env region client hClient hPage,
    afterLoop_no_skip env region _ h1 hSkip, h2, h3]

theorem orchestratorCalls_append (a b : List Event) :
    orchestratorCalls (a ++ b) = orchestratorCalls a ++ orchestratorCalls b := by
  simp [orchestratorCalls]

theorem describeCalls_append (a b : List Event) :
    describeCalls (a ++ b) = describeCalls a ++ describeCalls b := by
  simp [describeCalls]

theorem pageCalls_append (a b : List Event) :
    pageCalls (a ++ b) = pageCalls a ++ pageCalls b := by
  simp [pageCalls]

/-- The three ways a run that obtained its client can end: at a failing page
fetch, at the early return after the loop, or after the orchestrator ran. -/
theorem sweepKeys_of_client (env : Env) (region : String) (client : AWSClient)
    (hClient : env.SharedRegionalSweepClient region = .ok client) :
    (∃ e, pageError (env.script client) = some e
        ∧ sweepKeys env region = ⟨some (SweepError.plain e), (loopExit env region client).trace⟩)
    ∨ (pageError (env.script client) = none ∧ env.SkipSweepError none = true
        ∧ sweepKeys env region
          = ⟨ErrorOrNil (readingErrors env client.KMSClient
                (listedKeyIDs (fetched (env.script client)))),
              (loopExit env region client).trace
                ++ [Event.Printf "[WARN] Skipping KMS Key sweep for %s: %s"
                      [LogArg.str region, LogArg.err none]]⟩)
    ∨ (pageError (env.script client) = none ∧ env.SkipSweepError none = false
        ∧ sweepKeys env region
          = ⟨ErrorOrNil (readingErrors env client.KMSClient
                  (listedKeyIDs (fetched (env.script client)))
                ++ sweepingErrors region (env.SweepOrchestrator
                    ((listedKeyIDs (fetched (env.script client))).filterMap
                      (kept env client client.KMSClient)))),
              (loopExit env region client).trace
                ++ [Event.SweepOrchestrator
                      ((listedKeyIDs (fetched (env.script client))).filterMap
                        (kept env client client.KMSClient))]⟩) := by
  cases hP : pageError (env.script client) with
  | some e => exact Or.inl ⟨e, rfl, sweepKeys_page_error env region client e hClient hP⟩
  | none =>
    cases hS : env.SkipSweepError none with
    | true =>
      refine Or.inr (Or.inl ⟨rfl, rfl, ?_⟩)
      obtain ⟨h1, h2, -⟩ := loopExit_spec env region client
      rw [sweepKeys_pages_ok env region client hClient hP,
        afterLoop_skip env region _ h1 hS, h2]
    | false =>
      exact Or.inr (Or.inr ⟨rfl, rfl, sweepKeys_normal env region client hS hClient hP⟩)

/-- A run that obtained its client and whose page fetches all succeeded, when
the nil error is neither not-found nor makes the sweep skippable. -/
theorem sweepKeys_all_pages (env : Env) (region : String) (client : AWSClient)
    (pages : List ListKeysOutput)
    (hNF : env.NotFound none = false) (hSkip : env.SkipSweepError none = false)
    (hClient : env.SharedRegionalSweepClient region = .ok client)
    (hScript : env.script client = pages.map Except.ok) :
    (sweepKeys env region).result
        = ErrorOrNil (readingErrors env client.KMSClient (listedKeyIDs pages)
            ++ sweepingErrors region (env.SweepOrchestrator
                (((listedKeyIDs pages).filter (proceeds env client.KMSClient)).map
                  (newKeySweepResource client))))
    ∧ orchestratorCalls (sweepKeys env region).trace
        = [((listedKeyIDs pages).filter (proceeds env client.KMSClient)).map
            (newKeySweepResource client)]
    ∧ describeCalls (sweepKeys env region).trace = listedKeyIDs pages := by
  have hP : pageError (env.script client) = none := by rw [hScript, pageError_map_ok]
  have hF : fetched (env.script client) = pages := by rw [hScript, fetched_map_ok]
  obtain ⟨-, -, -, hD, hO, -⟩ := loopExit_spec env region client
  rw [sweepKeys_normal env region client hSkip hClient hP, hF,
    filterMap_kept env client client.KMSClient _ hNF]
  refine ⟨rfl, ?_, ?_⟩
  · simp only [orchestratorCalls_append, hO, List.nil_append]
    rfl
  · simp only [describeCalls_append, hD, hF]
    simp [describeCalls]

theorem proceeds_iff (env : Env) (conn : KMSConn) (keyID : String) :
    proceeds env conn keyID = true
      ↔ ∃ key, env.FindKeyByID conn keyID = .ok key
          ∧ key.KeyManager ≠ KeyManagerType.Aws ∧ key.KeyState ≠ KeyState.PendingDeletion := by
  unfold proceeds
  cases env.FindKeyByID conn keyID with
  | error e => simp
  | ok key => simp

theorem script_without (env : Env) (client : AWSClient) (keyID : String)
    (pages : List ListKeysOutput) (hScript : env.script client = pages.map Except.ok) :
    (env.without keyID).script client = (pages.map (pageWithout keyID)).map Except.ok := by
  simp only [Env.script, Env.without] at hScript ⊢
  rw [hScript]
  simp [pageWithout, Function.comp_def]

theorem listedKeyIDs_without (keyID : String) (pages : List ListKeysOutput) :
    listedKeyIDs (pages.map (pageWithout keyID))
      = (listedKeyIDs pages).filter (fun k => k != keyID) := by
  induction pages with
  | nil => rfl
  | cons p ps ih =>
    simp only [listedKeyIDs, List.map_cons, List.flatMap_cons, List.filter_append] at ih ⊢
    rw [ih]
    congr 1
    simp only [pageKeyIDs, pageWithout, List.filter_map]
    rfl

theorem filter_proceeds_without (env : Env) (conn : KMSConn) (keyID : String)
    (keyIDs : List String) (hk : proceeds env conn keyID = false) :
    (keyIDs.filter (fun k => k != keyID)).filter (proceeds env conn)
      = keyIDs.filter (proceeds env conn) := by
  induction keyIDs with
  | nil => rfl
  | cons x xs ih =>
    by_cases hx : x = keyID
    · subst hx
      simp [List.filter_cons, hk, ih]
    · simp only [List.filter_cons, bne_iff_ne, ne_eq, hx, not_false_eq_true, if_true, ih]

/-! ## Client creation -/

/-- C8: when obtaining the shared regional client for a region fails with `e`,
`sweepKeys` returns the non-nil error `error getting client: %w` wrapping `e`,
and the call to the client cache is the only call it makes: no page is listed,
no key is described and the orchestrator is not invoked. -/
theorem sweepKeys_client_failure (env : Env) (region : String) (e : GoError)
    (hClient : env.SharedRegionalSweepClient region = .error e) :
    (sweepKeys env region).result
        = some (SweepError.plain (GoError.errorf "error getting client: %w" [] e))
    ∧ (sweepKeys env region).trace = [Event.SharedRegionalSweepClient region]
    ∧ pageCalls (sweepKeys env region).trace = []
    ∧ describeCalls (sweepKeys env region).trace = []
    ∧ orchestratorCalls (sweepKeys env region).trace = [] := by
  rw [sweepKeys_client_error env region e hClient]
  exact ⟨rfl, rfl, rfl, rfl, rfl⟩

theorem sweepKeys_client_failure_witness :
    envNoClient.SharedRegionalSweepClient "us-west-2"
        = .error (GoError.external "no credentials")
    ∧ (sweepKeys envNoClient "us-west-2").result
        = some (SweepError.plain
            (GoError.errorf "error getting client: %w" [] (GoError.external "no credentials")))
    ∧ (sweepKeys envNoClient "us-west-2").trace
        = [Event.SharedRegionalSweepClient "us-west-2"] :=
  ⟨rfl,
   (sweepKeys_client_failure envNoClient "us-west-2" (GoError.external "no credentials") rfl).1,
   (sweepKeys_client_failure envNoClient "us-west-2" (GoError.external "no credentials") rfl).2.1⟩

/-! ## The function-level `err` after the loop -/

/-- C10: the pagination loop never assigns the function-level `err`, so that
variable is nil when the loop is left.  Assuming `SkipSweepError(nil)` is
false, no run logs the "Skipping KMS Key sweep" line of the early return, no
returned multi-error holds an "error listing KMS Keys" entry, and the
orchestrator is invoked exactly once if the client was obtained and every page
fetch succeeded, and not at all otherwise. -/
theorem sweepKeys_listing_error_branch_dead (env : Env) (region : String)
    (hSkip : env.SkipSweepError none = false) :
    (∀ client conn input script s,
        (pagesLoop env client conn input script s).1.err = s.err)
    ∧ (∀ client, (loopExit env region client).err = none)
    ∧ "[WARN] Skipping KMS Key sweep for %s: %s" ∉ logFormats (sweepKeys env region).trace
    ∧ (∀ errs, (sweepKeys env region).result = some (SweepError.multi errs) →
        ∀ e ∈ errs, hasFormat "error listing KMS Keys (%s): %w" e = false)
    ∧ ((orchestratorCalls (sweepKeys env region).trace).length = 1
        ↔ ∃ client, env.SharedRegionalSweepClient region = .ok client
            ∧ pageError (env.script client) = none)
    ∧ ((orchestratorCalls (sweepKeys env region).trace).length = 0
        ∨ (orchestratorCalls (sweepKeys env region).trace).length = 1) := by
  refine ⟨fun client conn input script s =>
      (pagesLoop_spec env client conn input script s).2.1,
    fun client => (loopExit_spec env region client).1, ?_⟩
  cases hC : env.SharedRegionalSweepClient region with
  | error e =>
    rw [sweepKeys_client_error env region e hC]
    refine ⟨by simp [logFormats], ?_, ?_, Or.inl rfl⟩
    · intro errs h
      simp at h
    · simp [orchestratorCalls]
  | ok client =>
    obtain ⟨-, -, -, -, hOrch, -, hLog⟩ := loopExit_spec env region client
    cases hP : pageError (env.script client) with
    | some e =>
      rw [sweepKeys_page_error env region client e hC hP]
      refine ⟨?_, ?_, ?_, Or.inl (by simp [hOrch])⟩
      · intro h
        have := hLog _ h
        revert this
        simp only [loopLogFormats]
        decide
      · intro errs h
        simp at h
      · simp only [hOrch, List.length_nil]
        constructor
        · intro h
          exact absurd h (by decide)
        · rintro ⟨client', h1, h2⟩
          cases h1
          rw [hP] at h2
          exact absurd h2 (by simp)
    | none =>
      rw [sweepKeys_normal env region client hSkip hC hP]
      refine ⟨?_, ?_, ?_, Or.inr ?_⟩
      · simp only [logFormats_append, List.mem_append, not_or]
        constructor
        · intro h
          have := hLog _ h
          revert this
          simp only [loopLogFormats]
          decide
        · simp [logFormats]
      · intro errs h e he
        cases hne : (readingErrors env client.KMSClient
            (listedKeyIDs (fetched (env.script client)))
          ++ sweepingErrors region (env.SweepOrchestrator
              ((listedKeyIDs (fetched (env.script client))).filterMap
                (kept env client client.KMSClient)))) with
        | nil => simp [hne, ErrorOrNil] at h
        | cons x xs =>
          rw [hne] at h
          simp only [ErrorOrNil, List.isEmpty_cons, Bool.false_eq_true, if_false,
            Option.some.injEq, SweepError.multi.injEq] at h
          rw [← h, ← hne, List.mem_append] at he
          rcases he with he | he
          · obtain ⟨k, -, cause, -, rfl⟩ := (mem_readingErrors _ _ _ _).1 he
            simp only [readingError, hasFormat]
            decide
          · revert he
            cases env.SweepOrchestrator ((listedKeyIDs (fetched (env.script client))).filterMap
                (kept env client client.KMSClient)) with
            | none => simp [sweepingErrors]
            | some c =>
              simp only [sweepingErrors, List.mem_singleton]
              rintro rfl
              simp only [hasFormat]
              decide
      · simp only [orchestratorCalls_append, hOrch, List.nil_append]
        simp only [orchestratorCalls, List.filterMap_cons, List.filterMap_nil,
          List.length_singleton, true_iff]
        exact ⟨client, rfl, hP⟩
      · simp only [orchestratorCalls_append, hOrch, List.nil_append]
        simp [orchestratorCalls]

theorem sweepKeys_listing_error_branch_dead_witness :
    envPageFails.SkipSweepError none = false
    ∧ "[WARN] Skipping KMS Key sweep for %s: %s"
        ∉ logFormats (sweepKeys envPageFails "us-west-2").trace
    ∧ ((orchestratorCalls (sweepKeys envPageFails "us-west-2").trace).length = 0
        ∨ (orchestratorCalls (sweepKeys envPageFails "us-west-2").trace).length = 1) :=
  ⟨rfl,
   (sweepKeys_listing_error_branch_dead envPageFails "us-west-2" rfl).2.2.1,
   (sweepKeys_listing_error_branch_dead envPageFails "us-west-2" rfl).2.2.2.2.2⟩

/-! ## Filtering -/

/-- C2: when the client is obtained and every page fetch succeeds, the
orchestrator is invoked once, with the sweepables of exactly those listed key
ids, in listing order and with multiplicity, whose describe call succeeded
with a key manager other than AWS and a key state other than pending
deletion: such a key id yields one sweepable for each time it is listed, any
other key id yields none.  (The nil error is assumed to be neither not-found
nor a reason to skip the sweep.) -/
theorem sweepKeys_sweepables_exact (env : Env) (region : String) (client : AWSClient)
    (pages : List ListKeysOutput)
    (hNF : env.NotFound none = false) (hSkip : env.SkipSweepError none = false)
    (hClient : env.SharedRegionalSweepClient region = .ok client)
    (hScript : env.script client = pages.map Except.ok) :
    orchestratorCalls (sweepKeys env region).trace
        = [((listedKeyIDs pages).filter (proceeds env client.KMSClient)).map
            (newKeySweepResource client)]
    ∧ (∀ k, proceeds env client.KMSClient k = true
        ↔ ∃ key, env.FindKeyByID client.KMSClient k = .ok key
            ∧ key.KeyManager ≠ KeyManagerType.Aws
            ∧ key.KeyState ≠ KeyState.PendingDeletion)
    ∧ (∀ k, (((listedKeyIDs pages).filter (proceeds env client.KMSClient)).map
              (newKeySweepResource client)).count (newKeySweepResource client k)
          = if proceeds env client.KMSClient k then (listedKeyIDs pages).count k else 0) := by
  refine ⟨(sweepKeys_all_pages env region client pages hNF hSkip hClient hScript).2.1,
    fun k => proceeds_iff env client.KMSClient k, ?_⟩
  intro k
  rw [List.count_map_of_injective _ _ (newKeySweepResource_injective client)]
  cases h : proceeds env client.KMSClient k with
  | true => simp [List.count_filter, h]
  | false =>
    simp only [Bool.false_eq_true, if_false, List.count_eq_zero, List.mem_filter, not_and]
    intro _
    simp [h]

theorem sweepKeys_sweepables_exact_witness :
    envThrottled.NotFound none = false ∧ envThrottled.SkipSweepError none = false
    ∧ envThrottled.SharedRegionalSweepClient "us-west-2" = .ok west
    ∧ envThrottled.script west = [pageOf ["A", "X"], pageOf ["M", "A"]].map Except.ok
    ∧ orchestratorCalls (sweepKeys envThrottled "us-west-2").trace
        = [((listedKeyIDs [pageOf ["A", "X"], pageOf ["M", "A"]]).filter
              (proceeds envThrottled west.KMSClient)).map (newKeySweepResource west)] :=
  ⟨rfl, rfl, rfl, rfl,
   (sweepKeys_sweepables_exact envThrottled "us-west-2" west
      [pageOf ["A", "X"], pageOf ["M", "A"]] rfl rfl rfl rfl).1⟩

/-! ## Deletion errors -/

/-- C7: when the client is obtained, every page fetch succeeds, no describe
call fails with an error other than not-found or authorization-denied, and the
orchestrator returns a deletion error `e` for the sweepables it is given, the
returned error is a multi-error with exactly one entry, `error sweeping KMS
Keys (<region>)` wrapping `e`; it holds no entry for any key id.  (The nil
error is assumed to be neither not-found nor a reason to skip the sweep.) -/
theorem sweepKeys_deletion_error_only (env : Env) (region : String) (client : AWSClient)
    (pages : List ListKeysOutput) (e : GoError)
    (hNF : env.NotFound none = false) (hSkip : env.SkipSweepError none = false)
    (hClient : env.SharedRegionalSweepClient region = .ok client)
    (hScript : env.script client = pages.map Except.ok)
    (hDescribe : ∀ k ∈ listedKeyIDs pages, describeFailure env client.KMSClient k = none)
    (hDelete : env.SweepOrchestrator
        (((listedKeyIDs pages).filter (proceeds env client.KMSClient)).map
          (newKeySweepResource client)) = some e) :
    (sweepKeys env region).result
        = some (SweepError.multi
            [GoError.errorf "error sweeping KMS Keys (%s): %w" [region] e])
    ∧ orchestratorCalls (sweepKeys env region).trace
        = [((listedKeyIDs pages).filter (proceeds env client.KMSClient)).map
            (newKeySweepResource client)] := by
  obtain ⟨h1, h2, -⟩ := sweepKeys_all_pages env region client pages hNF hSkip hClient hScript
  refine ⟨?_, h2⟩
  rw [h1, hDelete, (readingErrors_eq_nil env client.KMSClient _).2 hDescribe]
  rfl

theorem sweepKeys_deletion_error_only_witness :
    (sweepKeys envDeleteFails "us-west-2").result
        = some (SweepError.multi
            [GoError.errorf "error sweeping KMS Keys (%s): %w" ["us-west-2"]
              (GoError.external "deleting KMS Key: timeout")])
    ∧ orchestratorCalls (sweepKeys envDeleteFails "us-west-2").trace
        = [((listedKeyIDs [pageOf ["A", "P"]]).filter
              (proceeds envDeleteFails west.KMSClient)).map (newKeySweepResource west)] :=
  sweepKeys_deletion_error_only envDeleteFails "us-west-2" west [pageOf ["A", "P"]]
    (GoError.external "deleting KMS Key: timeout") rfl rfl rfl rfl (by decide) rfl

/-! ## Sweepables -/

/-- C9: every sweepable handed to the orchestrator was built for a listed key
id that reached Proceed, and carries the minimal deletion state for it: the
resource id and the field `key_id` are the key id, the field
`deletion_window_in_days` is 7, and it is bound to the client whose connection
served every listing call.  The key returned by the describe call does not
enter the sweepable: one iteration of the inner loop on a key that proceeds
appends `newKeySweepResource client keyID`, whatever the key's attributes. -/
theorem sweepKeys_sweepable_state (env : Env) (region : String) (client : AWSClient)
    (hClient : env.SharedRegionalSweepClient region = .ok client) :
    (∀ rs ∈ orchestratorCalls (sweepKeys env region).trace, ∀ r ∈ rs,
        ∃ keyID ∈ listedKeyIDs (fetched (env.script client)),
          proceeds env client.KMSClient keyID = true
          ∧ r = newKeySweepResource client keyID
          ∧ r.d.Id = keyID
          ∧ r.d.Get "key_id" = some (Value.str keyID)
          ∧ r.d.Get "deletion_window_in_days" = some (Value.int 7)
          ∧ r.client = client)
    ∧ (∀ conn ∈ pageCalls (sweepKeys env region).trace, conn = client.KMSClient)
    ∧ (∀ (s : Locals) (v : KeyListEntry) (key : KeyMetadata),
        env.NotFound none = false →
        env.FindKeyByID client.KMSClient (ToString v.KeyId) = .ok key →
        key.KeyManager ≠ KeyManagerType.Aws →
        key.KeyState ≠ KeyState.PendingDeletion →
        (keyStep env client client.KMSClient s v).sweepResources
          = s.sweepResources ++ [newKeySweepResource client (ToString v.KeyId)]) := by
  obtain ⟨-, -, -, -, hO, hPg, -⟩ := loopExit_spec env region client
  have hkept : ∀ r ∈ (listedKeyIDs (fetched (env.script client))).filterMap
      (kept env client client.KMSClient),
      ∃ keyID ∈ listedKeyIDs (fetched (env.script client)),
          proceeds env client.KMSClient keyID = true
          ∧ r = newKeySweepResource client keyID
          ∧ r.d.Id = keyID
          ∧ r.d.Get "key_id" = some (Value.str keyID)
          ∧ r.d.Get "deletion_window_in_days" = some (Value.int 7)
          ∧ r.client = client := by
    intro r hr
    obtain ⟨k, hk, hkr⟩ := List.mem_filterMap.1 hr
    obtain ⟨hp, rfl⟩ := kept_some env client client.KMSClient k r hkr
    obtain ⟨f1, f2, f3, f4, -⟩ := newKeySweepResource_fields client k
    exact ⟨k, hk, hp, rfl, f1, f2, f3, f4⟩
  refine ⟨?_, ?_, ?_⟩
  · rcases sweepKeys_of_client env region client hClient with
      ⟨e, -, h⟩ | ⟨-, -, h⟩ | ⟨-, -, h⟩
    · rw [h]
      simp [hO]
    · rw [h]
      simp only [orchestratorCalls_append, hO, List.nil_append]
      intro rs hrs
      exact absurd hrs (by simp [orchestratorCalls])
    · rw [h]
      simp only [orchestratorCalls_append, hO, List.nil_append]
      intro rs hrs
      have : rs = (listedKeyIDs (fetched (env.script client))).filterMap
          (kept env client client.KMSClient) := by
        simpa [orchestratorCalls] using hrs
      rw [this]
      exact hkept
  · rcases sweepKeys_of_client env region client hClient with
      ⟨e, -, h⟩ | ⟨-, -, h⟩ | ⟨-, -, h⟩
    · rw [h, hPg]
      intro conn hc
      exact List.eq_of_mem_replicate hc
    · rw [h, pageCalls_append, hPg]
      intro conn hc
      simp only [pageCalls, List.filterMap_cons, List.filterMap_nil, List.append_nil] at hc
      exact List.eq_of_mem_replicate hc
    · rw [h, pageCalls_append, hPg]
      intro conn hc
      simp only [pageCalls, List.filterMap_cons, List.filterMap_nil, List.append_nil] at hc
      exact List.eq_of_mem_replicate hc
  · intro s v key hNF hk h1 h2
    rw [keyStep_sweepResources]
    simp [kept, hk, hNF, h1, h2]

theorem sweepKeys_sweepable_state_witness :
    envThrottled.SharedRegionalSweepClient "us-west-2" = .ok west
    ∧ (∀ rs ∈ orchestratorCalls (sweepKeys envThrottled "us-west-2").trace, ∀ r ∈ rs,
        ∃ keyID ∈ listedKeyIDs (fetched (envThrottled.script west)),
          proceeds envThrottled west.KMSClient keyID = true
          ∧ r = newKeySweepResource west keyID
          ∧ r.d.Id = keyID
          ∧ r.d.Get "key_id" = some (Value.str keyID)
          ∧ r.d.Get "deletion_window_in_days" = some (Value.int 7)
          ∧ r.client = west) :=
  ⟨rfl, (sweepKeys_sweepable_state envThrottled "us-west-2" west rfl).1⟩

/-! ## Authorization-denied describe errors -/

/-- C3, evaluated: the listing is the single page `[A, B, C]`; `A` is a normal
key, describing `B` is not found and describing `C` is denied by the service
with an `AccessDeniedException` "is not authorized to perform" error of the
SDK v2 client.  The matcher called on line 58 is the SDK v1 one and answers
false on that error, so the iteration for `C` records a `reading KMS Key (C)`
entry instead of skipping: the orchestrator is invoked with the sweepable of
`A` and succeeds, and `sweepKeys` returns a non-nil error. -/
theorem sweepKeys_access_denied_recorded :
    errOf (envABC.FindKeyByID west.KMSClient "B") = some (GoError.external "NotFound")
    ∧ envABC.NotFound (some (GoError.external "NotFound")) = true
    ∧ errOf (envABC.FindKeyByID west.KMSClient "C") = some accessDenied
    ∧ isAccessDenied accessDenied = true
    ∧ envABC.ErrMessageContains (some accessDenied) "AccessDeniedException"
        "is not authorized to perform" = false
    ∧ (keyStep envABC west west.KMSClient (loopEntry "us-west-2") ⟨some "C"⟩).sweeperErrs
        = [readingError "C" accessDenied]
    ∧ (keyStep envABC west west.KMSClient (loopEntry "us-west-2") ⟨some "B"⟩).sweeperErrs = []
    ∧ orchestratorCalls (sweepKeys envABC "us-west-2").trace
        = [[newKeySweepResource west "A"]]
    ∧ envABC.SweepOrchestrator [newKeySweepResource west "A"] = none
    ∧ (sweepKeys envABC "us-west-2").result
        = some (SweepError.multi [readingError "C" accessDenied]) := by
  decide

/-- C5, evaluated: the client is obtained, both pages `[A]` and `[C]` are
fetched, the only describe failure is the authorization denial for `C`, and
the orchestrator is invoked once and returns nil; yet `sweepKeys` returns a
non-nil error, holding the `reading KMS Key (C)` entry recorded because the
SDK v1 matcher of line 58 does not recognise the SDK v2 error. -/
theorem sweepKeys_access_denied_fails_run :
    envDenied.SharedRegionalSweepClient "us-west-2" = .ok west
    ∧ pageError (envDenied.script west) = none
    ∧ listedKeyIDs (fetched (envDenied.script west)) = ["A", "C"]
    ∧ (∀ k ∈ listedKeyIDs (fetched (envDenied.script west)), ∀ e,
        errOf (envDenied.FindKeyByID west.KMSClient k) = some e →
          envDenied.NotFound (some e) = true ∨ isAccessDenied e = true)
    ∧ orchestratorCalls (sweepKeys envDenied "us-west-2").trace
        = [[newKeySweepResource west "A"]]
    ∧ envDenied.SweepOrchestrator [newKeySweepResource west "A"] = none
    ∧ (sweepKeys envDenied "us-west-2").result
        = some (SweepError.multi [readingError "C" accessDenied]) := by
  refine ⟨rfl, by decide, by decide, ?_, by decide, rfl, by decide⟩
  intro k hk e he
  have hk' : k = "A" ∨ k = "C" := by
    have : listedKeyIDs (fetched (envDenied.script west)) = ["A", "C"] := by decide
    rw [this] at hk
    simpa using hk
  rcases hk' with rfl | rfl
  · have h1 : errOf (envDenied.FindKeyByID west.KMSClient "A") = none := by decide
    rw [h1] at he
    exact absurd he (by simp)
  · have : e = accessDenied := by
      have h2 : errOf (envDenied.FindKeyByID west.KMSClient "C") = some accessDenied := by
        decide
      rw [h2] at he
      exact (Option.some.inj he).symm
    rw [this]
    exact Or.inr (by decide)

/-! ## Hard describe errors -/

/-- C4: in a run that obtains its client and fetches every page, a describe
failure for a listed key id that is neither not-found nor
authorization-denied does not abort the remaining candidates: every listed
key id is described, in listing order; the orchestrator is invoked with the
same sweepables as in the run where the failing key id is absent from the
listing; and the returned error is a multi-error whose entries are one
`reading KMS Key (<id>)` entry wrapping the cause for each key id failing that
way, in listing order, followed by the orchestrator's error if there is one.
(The nil error is assumed to be neither not-found nor a reason to skip the
sweep.) -/
theorem sweepKeys_describe_failure_isolated (env : Env) (region : String)
    (client : AWSClient) (pages : List ListKeysOutput) (keyID : String) (cause : GoError)
    (hNF : env.NotFound none = false) (hSkip : env.SkipSweepError none = false)
    (hClient : env.SharedRegionalSweepClient region = .ok client)
    (hScript : env.script client = pages.map Except.ok)
    (hListed : keyID ∈ listedKeyIDs pages)
    (hFail : describeFailure env client.KMSClient keyID = some cause) :
    describeCalls (sweepKeys env region).trace = listedKeyIDs pages
    ∧ orchestratorCalls (sweepKeys env region).trace
        = [((listedKeyIDs pages).filter (proceeds env client.KMSClient)).map
            (newKeySweepResource client)]
    ∧ orchestratorCalls (sweepKeys env region).trace
        = orchestratorCalls (sweepKeys (env.without keyID) region).trace
    ∧ (sweepKeys env region).result
        = some (SweepError.multi
            ((listedKeyIDs pages).filterMap
                (fun k => (describeFailure env client.KMSClient k).map (readingError k))
              ++ sweepingErrors region (env.SweepOrchestrator
                  (((listedKeyIDs pages).filter (proceeds env client.KMSClient)).map
                    (newKeySweepResource client)))))
    ∧ readingError keyID cause
        ∈ (listedKeyIDs pages).filterMap
            (fun k => (describeFailure env client.KMSClient k).map (readingError k)) := by
  obtain ⟨h1, h2, h3⟩ := sweepKeys_all_pages env region client pages hNF hSkip hClient hScript
  have hmem : readingError keyID cause ∈ readingErrors env client.KMSClient
      (listedKeyIDs pages) :=
    (mem_readingErrors _ _ _ _).2 ⟨keyID, hListed, cause, hFail, rfl⟩
  have hp : proceeds env client.KMSClient keyID = false := by
    unfold describeFailure at hFail
    unfold proceeds
    cases hf : env.FindKeyByID client.KMSClient keyID with
    | ok key => simp [hf] at hFail
    | error e => rfl
  refine ⟨h3, h2, ?_, ?_, hmem⟩
  · obtain ⟨-, h2', -⟩ := sweepKeys_all_pages (env.without keyID) region client
      (pages.map (pageWithout keyID)) hNF hSkip hClient
      (script_without env client keyID pages hScript)
    rw [h2, h2', listedKeyIDs_without]
    have : proceeds (env.without keyID) client.KMSClient = proceeds env client.KMSClient := rfl
    rw [this, filter_proceeds_without env client.KMSClient keyID _ hp]
  · rw [h1]
    apply ErrorOrNil_of_ne_nil
    intro hnil
    rw [List.append_eq_nil] at hnil
    rw [hnil.1] at hmem
    exact absurd hmem (List.not_mem_nil _)

theorem sweepKeys_describe_failure_isolated_witness :
    "X" ∈ listedKeyIDs [pageOf ["A", "X"], pageOf ["M", "A"]]
    ∧ describeFailure envThrottled west.KMSClient "X"
        = some (GoError.external "ThrottlingException")
    ∧ describeCalls (sweepKeys envThrottled "us-west-2").trace = ["A", "X", "M", "A"]
    ∧ orchestratorCalls (sweepKeys envThrottled "us-west-2").trace
        = [[newKeySweepResource west "A", newKeySweepResource west "A"]]
    ∧ (sweepKeys envThrottled "us-west-2").result
        = some (SweepError.multi
            [readingError "X" (GoError.external "ThrottlingException")]) := by
  have h := sweepKeys_describe_failure_isolated envThrottled "us-west-2" west
    [pageOf ["A", "X"], pageOf ["M", "A"]] "X" (GoError.external "ThrottlingException")
    rfl rfl rfl rfl (by decide) (by decide)
  refine ⟨by decide, by decide, h.1, ?_, ?_⟩
  · rw [h.2.1]
    decide
  · rw [h.2.2.2.1]
    decide

/-! ## Page-fetch errors -/

/-- C1, evaluated: the page `[A]` is fetched and `A` passes filtering, so its
sweepable is collected; the fetch of the second page then fails.  `sweepKeys`
returns the page error at once and the orchestrator is never invoked. -/
theorem sweepKeys_page_failure_abandons_sweepables :
    (loopExit envPageFails "us-west-2" west).sweepResources = [newKeySweepResource west "A"]
    ∧ (sweepKeys envPageFails "us-west-2").result
        = some (SweepError.plain (GoError.external "ListKeys: timeout"))
    ∧ orchestratorCalls (sweepKeys envPageFails "us-west-2").trace = []
    ∧ (sweepKeys envPageFails "us-west-2").trace
        = [Event.SharedRegionalSweepClient "us-west-2",
            Event.NextPage west.KMSClient ⟨some 1000⟩,
            Event.FindKeyByID west.KMSClient "A",
            Event.NextPage west.KMSClient ⟨some 1000⟩] := by
  decide

/-- C6, evaluated: the page `[X]` is fetched and describing `X` fails with a
throttling error, which is recorded in `sweeperErrs`; the fetch of the second
page then fails.  `sweepKeys` returns the page error alone: the recorded
describe failure is not part of the returned error. -/
theorem sweepKeys_page_failure_drops_recorded_errors :
    (loopExit envFailsTwice "us-west-2" west).sweeperErrs
        = [readingError "X" (GoError.external "ThrottlingException")]
    ∧ (sweepKeys envFailsTwice "us-west-2").result
        = some (SweepError.plain (GoError.external "ListKeys: timeout"))
    ∧ orchestratorCalls (sweepKeys envFailsTwice "us-west-2").trace = [] := by
  decide

end KMSSweep
